import Mathlib

/-
Verification of the Dart scope code-generation backend
(compiler/generator/dartlang/generator.go) against its specification.

The generator's pure computations are embedded as Lean functions; the
behaviour of the Dart statements it emits (publisher/subscriber bodies)
is embedded as explicit state passing over an event log.  File IO is
modelled as functions on file contents.  Components of the repository
that are not part of the provided sources (the parser package, the
globals package, the base generator) are modelled from the spec and
marked as such in their doc comments.
-/

namespace Frugalc

/-- Extensionality helper for strings: equal character data gives equal strings. -/
theorem strExt {a b : String} (h : a.data = b.data) : a = b := by
  cases a; cases b; exact congrArg String.mk h

/-- Character data of a string concatenation is the concatenation of the data. -/
theorem strData_append (a b : String) : (a ++ b).data = a.data ++ b.data := rfl

/-- ASCII model of Go `strings.Title` word separators: letters, digits and
underscore are non-separators, everything else separates words. -/
def isGoSep (c : Char) : Bool := !(c.isAlphanum || c = '_')

/-- Recursive worker for `goTitle`: uppercase every character that follows a
separator (the flag says whether the previous character was a separator). -/
def goTitleAux : Bool → List Char → List Char
  | _, [] => []
  | prevSep, c :: rest => (if prevSep then c.toUpper else c) :: goTitleAux (isGoSep c) rest

/-- ASCII model of Go `strings.Title`: uppercase the first letter of every word. -/
def goTitle (s : String) : String := ⟨goTitleAux true s.data⟩

/-- ASCII model of Go `strings.ToLower`: lowercase every character. -/
def goToLower (s : String) : String := ⟨s.data.map Char.toLower⟩

/-- Embeds `toLibraryName` (generator.go:381-383): replace every dot with an
underscore, as `strings.Replace(name, ".", "_", -1)` does for the
single-character pattern ".". -/
def toLibraryName (name : String) : String :=
  ⟨name.data.map (fun c => if c = '.' then '_' else c)⟩

/-- The target language tag (generator.go:18). -/
def lang : String := "dart"

/-- Rendering of surplus arguments by Go `fmt.Sprintf` when the format string has
fewer verbs than arguments; only its non-emptiness matters here, every use in
the development is guarded away by a placeholder-count hypothesis. -/
def extrasChars : List String → List Char
  | [] => []
  | a :: rest => ("%!(EXTRA string=" ++ a ++ ")").data ++ extrasChars rest

/-- Worker for the character-level model of Go `fmt.Sprintf` on format strings
whose only verb is `%s`: the flag records whether a `%` was just read.  Each
`%s` consumes the next argument verbatim (arguments are never re-scanned); a
missing argument renders Go's `%!s(MISSING)` marker, surplus arguments render
an `EXTRA` marker, and a stray `%` renders a `%!` marker. -/
def sprintfAux : Bool → List Char → List String → List Char
  | false, [], args => extrasChars args
  | false, c :: rest, args =>
    if c = '%' then sprintfAux true rest args
    else c :: sprintfAux false rest args
  | true, [], _ => ['%', '!']
  | true, c :: rest, args =>
    if c = 's' then
      match args with
      | a :: args' => a.data ++ sprintfAux false rest args'
      | [] => ("%!s(MISSING)").data ++ sprintfAux false rest []
    else '%' :: '!' :: c :: sprintfAux false rest args

/-- Character-level model of Go `fmt.Sprintf` for `%s`-only format strings. -/
def charSprintf (format : List Char) (args : List String) : List Char :=
  sprintfAux false format args

/-- String-level wrapper of `charSprintf`, modelling `fmt.Sprintf` on `%s`-only
format strings. -/
def goSprintf (format : String) (args : List String) : String :=
  ⟨charSprintf format.data args⟩

/-- Modelled from the spec: one piece of a scope's topic-prefix literal, which
is "a literal prefix interspersed with named variables" — either literal text
or a named positional placeholder.  (The parser that produces this structure,
`parser.ScopePrefix`, is not part of the provided sources.) -/
inductive TPiece where
  | lit (s : String)
  | svar (name : String)
deriving DecidableEq

/-- Modelled from the spec: a Scope's Prefix, "a literal template string plus
an ordered list of variable names" (`parser.ScopePrefix`, not in the provided
sources). -/
structure ScopePfx where
  pieces : List TPiece
  vars : List String
deriving DecidableEq

/-- Character data of the literal prefix as written in the IDL: a placeholder
named `n` appears as the text `{n}`. -/
def prefixStrChars : List TPiece → List Char
  | [] => []
  | .lit s :: ps => s.data ++ prefixStrChars ps
  | .svar n :: ps => '\x7b' :: (n.data ++ ('\x7d' :: prefixStrChars ps))

/-- Modelled from the spec: the `String` field of `parser.ScopePrefix`, the
literal prefix as written. -/
def ScopePfx.string (p : ScopePfx) : String := ⟨prefixStrChars p.pieces⟩

/-- Character data of the prefix format string: each placeholder becomes the
positional verb `%s`. -/
def tmplChars : List TPiece → List Char
  | [] => []
  | .lit s :: ps => s.data ++ tmplChars ps
  | .svar _ :: ps => '%' :: 's' :: tmplChars ps

/-- Modelled from the spec: `parser.ScopePrefix.Template()` (not in the
provided sources) — the literal prefix with every positional placeholder
replaced by the format verb `%s`. -/
def ScopePfx.template (p : ScopePfx) : String := ⟨tmplChars p.pieces⟩

/-- Number of positional placeholders in a prefix literal. -/
def slotCount : List TPiece → Nat
  | [] => 0
  | .lit _ :: ps => slotCount ps
  | .svar _ :: ps => slotCount ps + 1

/-- Every literal piece of the prefix is free of the `%` character (so the
only format verbs `fmt.Sprintf` sees are the generated `%s` slots). -/
def piecesNoPct : List TPiece → Bool
  | [] => true
  | .lit s :: ps => s.data.all (fun c => c != '%') && piecesNoPct ps
  | .svar _ :: ps => piecesNoPct ps

/-- Embeds `parser.Operation` as described by the spec: an operation has a
name, a single parameter type name, and optionally the name of the Include
the parameter type originates from (empty string meaning none).  The parser
accessors `ParamName()` and `IncludeName()` are modelled by the
`paramName` and `includeName` fields. -/
structure Operation where
  name : String
  paramName : String
  includeName : String
deriving DecidableEq

/-- Embeds `parser.Scope`: a name, a Prefix and an ordered list of operations. -/
structure Scope where
  name : String
  pfx : ScopePfx
  operations : List Operation
deriving DecidableEq

/-- Embeds the parts of `parser.Frugal` this backend reads: the schema name,
the per-language namespace declarations, the flattened referenced-include
list, the per-include resolved namespace for the Dart language (modelled from
the spec's NamespaceResolver contract: declared namespace when present), and
the scopes. -/
structure Frugal where
  name : String
  namespaces : List (String × String)
  referencedIncludes : List String
  includeNamespaces : List (String × String)
  scopes : List Scope

/-- Association-list lookup (model of Go map reads with `ok` flag). -/
def lookupA {β : Type} : List (String × β) → String → Option β
  | [], _ => none
  | (k, v) :: rest, key => if k = key then some v else lookupA rest key

/-- Modelled from the spec: `f.NamespaceForInclude(include, lang)` for the
Dart language — the namespace declared by the included schema for Dart, or
none when it declared none. -/
def namespaceForInclude (f : Frugal) (inc : String) : Option String :=
  lookupA f.includeNamespaces inc

/-- Embeds `generatePrefixStringTemplate` (generator.go:281-297): empty for an
empty literal prefix; otherwise the prefix format string with the topic
delimiter appended, returned as-is when no variables are declared and
otherwise run through `fmt.Sprintf` with one Dart interpolation expression
per declared variable, in declaration order.  The topic delimiter
(`globals.TopicDelimiter`, not in the provided sources) is a parameter. -/
def generatePrefixStringTemplate (delim : String) (scope : Scope) : String :=
  if scope.pfx.string = "" then "" else
  let template := scope.pfx.template ++ delim
  if scope.pfx.vars = [] then template else
  goSprintf template (scope.pfx.vars.map (fun v => "$\x7b" ++ v ++ "\x7d"))

/-- Direct positional substitution: character data of the literal prefix with
placeholder number `i` replaced by a Dart interpolation expression referencing
variable number `i` of the given list, independently of the placeholder's own
name. -/
def substChars : List TPiece → List String → List Char
  | [], _ => []
  | .lit s :: ps, vs => s.data ++ substChars ps vs
  | .svar _ :: ps, [] => ("%!s(MISSING)").data ++ substChars ps []
  | .svar _ :: ps, v :: vs => ("$\x7b" ++ v ++ "\x7d").data ++ substChars ps vs

/-- Follows the spec's words for the compiled topic-prefix template (spec 4.2):
empty when the literal prefix is empty; the literal prefix plus the delimiter,
verbatim, when no variables are declared; otherwise the literal prefix with
placeholder `i` replaced by an interpolation expression referencing declared
variable `i`, plus the delimiter. -/
def specCompiledTemplate (delim : String) (p : ScopePfx) : String :=
  if p.string = "" then "" else
  if p.vars = [] then p.string ++ delim
  else (⟨substChars p.pieces p.vars⟩ : String) ++ delim

/-- Scanner mode for the Dart string-interpolation semantics: ordinary text, a
dollar sign just seen, or collecting a (reversed) interpolation name. -/
inductive IMode where
  | txt
  | dollar
  | name (acc : List Char)

/-- Character-level semantics of Dart string interpolation for the generated
string literals, which only ever use the `$\x7bname\x7d` form; an
interpolated value is inserted verbatim and never re-scanned, as in Dart. -/
def interpAux (env : String → String) : IMode → List Char → List Char
  | IMode.txt, [] => []
  | IMode.txt, c :: rest =>
    if c = '$' then interpAux env IMode.dollar rest
    else c :: interpAux env IMode.txt rest
  | IMode.dollar, [] => ['$']
  | IMode.dollar, c :: rest =>
    if c = '\x7b' then interpAux env (IMode.name []) rest
    else '$' ::
      (if c = '$' then interpAux env IMode.dollar rest
       else c :: interpAux env IMode.txt rest)
  | IMode.name acc, [] => '$' :: '\x7b' :: acc.reverse
  | IMode.name acc, c :: rest =>
    if c = '\x7d' then (env ⟨acc.reverse⟩).data ++ interpAux env IMode.txt rest
    else interpAux env (IMode.name (c :: acc)) rest

/-- Dart string interpolation under an environment binding variable names to
their runtime string values. -/
def dartInterp (env : String → String) (s : String) : String :=
  ⟨interpAux env IMode.txt s.data⟩

/-- Runtime value of the topic computed by a generated publish method
(generator.go:261-263): the interpolated compiled prefix, then the
title-cased scope name, then the delimiter, then the operation name. -/
def publishTopic (delim : String) (scope : Scope) (env : String → String)
    (opName : String) : String :=
  dartInterp env (generatePrefixStringTemplate delim scope) ++
    goTitle scope.name ++ delim ++ opName

/-- Runtime value of the topic computed by a generated subscribe method
(generator.go:324-326): the interpolated compiled prefix, then the
title-cased scope name, then the delimiter, then the operation name. -/
def subscribeTopic (delim : String) (scope : Scope) (env : String → String)
    (opName : String) : String :=
  dartInterp env (generatePrefixStringTemplate delim scope) ++
    goTitle scope.name ++ delim ++ opName

/-- Embeds `qualifiedParamName` (generator.go:365-379): with an originating
include, qualify the parameter name with the include's resolved namespace
(falling back to the include's literal name), normalized to a library name
and lower-cased; without one, qualify with the lower-cased parameter name
itself. -/
def qualifiedParamName (f : Frugal) (op : Operation) : String :=
  let param := op.paramName
  let inc := op.includeName
  if inc ≠ "" then
    let namespace1 := (namespaceForInclude f inc).getD inc
    let namespace2 := toLibraryName namespace1
    "t_" ++ goToLower namespace2 ++ "." ++ param
  else
    "t_" ++ goToLower param ++ "." ++ param

/-- Model of the thrift message-type enum referenced by the emitted code. -/
inductive TMessageType where
  | CALL
  | REPLY
  | EXCEPTION
  | ONEWAY
deriving DecidableEq

/-- Model of a thrift message envelope header. -/
structure TMessage where
  name : String
  ttype : TMessageType
  seqid : Nat
deriving DecidableEq

/-- Observable protocol/transport actions performed by a generated publish
method body. -/
inductive PubEvent where
  | prepare (topic : String)
  | msgBegin (msg : TMessage)
  | reqWrite
  | msgEnd
  | flush
deriving DecidableEq

/-- Mutable state of a generated publisher instance: its sequence counter. -/
structure PubState where
  seqId : Nat
deriving DecidableEq

/-- The value a generated publish method returns: the future produced by the
final transport flush. -/
inductive PubReturn where
  | flushFuture
deriving DecidableEq

/-- Publisher-side emulation cell: the publisher state plus the log of
protocol/transport actions performed so far. -/
structure Emu where
  st : PubState
  log : List PubEvent
deriving DecidableEq

/-- Semantics of the emitted `transport.preparePublish(topic);` statement. -/
def stmtPreparePublish (topic : String) (m : Emu) : Emu :=
  { m with log := m.log ++ [PubEvent.prepare topic] }

/-- Semantics of the emitted `seqId++;` statement. -/
def stmtIncrSeq (m : Emu) : Emu :=
  { m with st := ⟨m.st.seqId + 1⟩ }

/-- Semantics of the emitted `oprot.writeMessageBegin(msg);` statement. -/
def stmtWriteMessageBegin (msg : TMessage) (m : Emu) : Emu :=
  { m with log := m.log ++ [PubEvent.msgBegin msg] }

/-- Semantics of the emitted `req.write(oprot);` statement. -/
def stmtReqWrite (m : Emu) : Emu :=
  { m with log := m.log ++ [PubEvent.reqWrite] }

/-- Semantics of the emitted `oprot.writeMessageEnd();` statement. -/
def stmtWriteMessageEnd (m : Emu) : Emu :=
  { m with log := m.log ++ [PubEvent.msgEnd] }

/-- Semantics of the emitted `return oprot.transport.flush();` statement:
performs the flush and yields its future. -/
def stmtFlush (m : Emu) : Emu × PubReturn :=
  ({ m with log := m.log ++ [PubEvent.flush] }, PubReturn.flushFuture)

/-- Behaviour of the Dart publish method body emitted at generator.go:260-272,
statement by statement in emission order, for one call with prefix-variable
environment `env` on a publisher in state `st`. -/
def publishBody (delim : String) (scope : Scope) (op : Operation)
    (env : String → String) (st : PubState) : PubState × List PubEvent × PubReturn :=
  let opName := op.name
  let pfxVal := dartInterp env (generatePrefixStringTemplate delim scope)
  let topic := pfxVal ++ goTitle scope.name ++ delim ++ opName
  let m0 : Emu := ⟨st, []⟩
  let m1 := stmtPreparePublish topic m0
  let m2 := stmtIncrSeq m1
  let msg : TMessage := ⟨opName, TMessageType.CALL, m2.st.seqId⟩
  let m3 := stmtWriteMessageBegin msg m2
  let m4 := stmtReqWrite m3
  let m5 := stmtWriteMessageEnd m4
  let mr := stmtFlush m5
  (mr.1.st, mr.1.log, mr.2)

/-- State of a freshly constructed publisher (generator.go:240-245): the
constructor sets `seqId = 0`. -/
def newPublisher : PubState := ⟨0⟩

/-- Runs a sequence of publish calls (each an operation together with its
prefix-variable environment) on a publisher, concatenating the action logs. -/
def runPublishes (delim : String) (scope : Scope) :
    PubState → List (Operation × (String → String)) → List PubEvent × PubState
  | st, [] => ([], st)
  | st, (op, env) :: rest =>
    let r := publishBody delim scope op env st
    let r' := runPublishes delim scope r.1 rest
    (r.2.1 ++ r'.1, r'.2)

/-- Sequence numbers of the message envelopes written in an action log, in
order. -/
def seqsOf : List PubEvent → List Nat
  | [] => []
  | e :: rest =>
    match e with
    | PubEvent.msgBegin msg => msg.seqid :: seqsOf rest
    | _ => seqsOf rest

/-- Consecutive naturals `[s, s+1, ..., s+n-1]`. -/
def seqList : Nat → Nat → List Nat
  | _, 0 => []
  | s, n + 1 => s :: seqList (s + 1) n

/-- Model of the thrift application-error type enum referenced by the emitted
subscriber code. -/
inductive TApplicationErrorType where
  | UNKNOWN
  | UNKNOWN_METHOD
deriving DecidableEq

/-- Model of `thrift.TApplicationError`: an error type plus a message. -/
structure TApplicationError where
  etype : TApplicationErrorType
  message : String
deriving DecidableEq

/-- Observable protocol actions performed by the generated private receive
routine. -/
inductive RecvEvent where
  | readMsgBegin
  | skipStruct
  | readMsgEnd
  | constructReq (typeName : String)
  | reqRead
deriving DecidableEq

/-- Input protocol about to deliver one message: the envelope header it will
yield on `readMessageBegin` and the decoded payload a successful structural
read would produce. -/
structure InProt (α : Type) where
  msg : TMessage
  payload : α
deriving DecidableEq

/-- Behaviour of the Dart `_recv<Op>` routine emitted at generator.go:339-352:
read the envelope; on a name mismatch skip the payload structurally, close
the envelope and throw an unknown-method application error; otherwise
construct a fresh instance of the qualified parameter type (`qn`),
deserialize it, close the envelope and return it. -/
def recvBody {α : Type} (opName qn : String) (iprot : InProt α) :
    Except TApplicationError α × List RecvEvent :=
  let tMsg := iprot.msg
  let log0 : List RecvEvent := [RecvEvent.readMsgBegin]
  if tMsg.name ≠ opName then
    (Except.error ⟨TApplicationErrorType.UNKNOWN_METHOD, tMsg.name⟩,
      log0 ++ [RecvEvent.skipStruct, RecvEvent.readMsgEnd])
  else
    (Except.ok iprot.payload,
      log0 ++ [RecvEvent.constructReq qn, RecvEvent.reqRead, RecvEvent.readMsgEnd])

/-- A pubspec dependency descriptor: a remote git source or a relative path
(generator.go:73-80). -/
inductive Dep where
  | git (url : String)
  | path (p : String)
deriving DecidableEq

/-- Go map assignment `m[k] = v` on a map modelled as an association list:
overwrite the existing entry for `k` or append a new one. -/
def mapInsert {β : Type} : List (String × β) → String → β → List (String × β)
  | [], k, v => [(k, v)]
  | (k', v') :: rest, k, v =>
    if k' = k then (k', v) :: rest else (k', v') :: mapInsert rest k v

/-- Keys of an association list, in order. -/
def keysOf {β : Type} : List (String × β) → List String
  | [] => []
  | (k, _) :: rest => k :: keysOf rest

/-- Resolved library name of one include: its declared Dart namespace (or the
include name as fallback), with dots replaced (generator.go:90-95). -/
def modName (f : Frugal) (inc : String) : String :=
  toLibraryName ((namespaceForInclude f inc).getD inc)

/-- Resolved library names of all referenced includes, in order. -/
def modNames (f : Frugal) : List String := f.referencedIncludes.map (modName f)

/-- Embeds the dependency-map construction of `addToPubspec`
(generator.go:85-96): start from the two fixed git dependencies, then for
every referenced include insert a relative-path dependency keyed by the
include's resolved library name. -/
def addToPubspecDeps (f : Frugal) : List (String × Dep) :=
  let deps := [("thrift", Dep.git "git@github.com:Workiva/thrift-dart.git"),
               ("frugal", Dep.git "git@github.com:Workiva/frugal-dart.git")]
  f.referencedIncludes.foldl
    (fun deps inc =>
      let ns := (namespaceForInclude f inc).getD inc
      mapInsert deps (toLibraryName ns) (Dep.path ("../" ++ toLibraryName ns)))
    deps

/-- Modelled from the spec: the output-file kinds the multi-backend driver can
request (`generator.FileType`, not in the provided sources); this backend
supports only the combined scope file. -/
inductive FileType where
  | combinedScope
  | combinedService
  | publishFile
  | subscribeFile
deriving DecidableEq

/-- Modelled from the spec: the display string of a file type, as interpolated
into the unsupported-file-type error message. -/
def fileTypeName : FileType → String
  | FileType.combinedScope => "combined_scope"
  | FileType.combinedService => "combined_service"
  | FileType.publishFile => "publish"
  | FileType.subscribeFile => "subscribe"

/-- Modelled from the spec: the fixed generated-file name prefix
(`generator.FilePrefix`, not in the provided sources); its exact value is
immaterial to every theorem below. -/
def filePfx : String := "frug_"

/-- Modelled from the spec: `BaseGenerator.CreateFile` (not in the provided
sources) creates a file named after the lower-cased scope, with the generated
file prefix when requested, under the given directory; the model returns the
created file's path. -/
def createFile (name dir suffix : String) (usePfx : Bool) : String :=
  dir ++ "/" ++ (if usePfx then filePfx else "") ++ name ++ "." ++ suffix

/-- Embeds `GenerateFile` (generator.go:155-162): any file type other than the
combined scope file is an immediate error; the combined scope file is created
under `lib/src`. -/
def generateFile (name outputDir : String) (fileType : FileType) :
    Except String String :=
  if fileType ≠ FileType.combinedScope then
    Except.error ("frugal: Bad file type for dartlang generator: " ++
      fileTypeName fileType)
  else
    Except.ok (createFile (goToLower name) (outputDir ++ "/lib" ++ "/src") lang true)

/-- The class-name pair a facade export line shows for a scope
(generator.go:144-145): the scope's declared name suffixed with `Publisher`
and with `Subscriber`. -/
def exportShown (scope : Scope) : String × String :=
  (scope.name ++ "Publisher", scope.name ++ "Subscriber")

/-- One facade export line for a scope (generator.go:144-145). -/
def exportLine (scope : Scope) : String :=
  "export 'src/" ++ filePfx ++ goToLower scope.name ++ "." ++ lang ++ "' show " ++
    (exportShown scope).1 ++ ", " ++ (exportShown scope).2 ++ ";\n"

/-- The block of text `exportClasses` builds before writing
(generator.go:142-146): a newline followed by one export line per scope, in
scope order. -/
def exportsFor (f : Frugal) : String :=
  f.scopes.foldl (fun exports scope => exports ++ exportLine scope) "\n"

/-- Embeds the write performed by `exportClasses` (generator.go:147-152): the
facade file's contents after `WriteAt(exports, stat.Size())`, which places
the export block at the current end of file. -/
def exportClasses (oldContents : String) (f : Frugal) : String :=
  oldContents ++ exportsFor f

/-- Name of the publisher class emitted for a scope (generator.go:235). -/
def publisherClassName (scope : Scope) : String :=
  goTitle scope.name ++ "Publisher"

/-- Name of the subscriber class emitted for a scope (generator.go:304). -/
def subscriberClassName (scope : Scope) : String :=
  goTitle scope.name ++ "Subscriber"

/-- The round-trip scenario operation of the spec: `Created` with parameter
type `UserEvent` and no originating include. -/
def opCreated : Operation := ⟨"Created", "UserEvent", ""⟩

/-- The round-trip scenario scope of the spec: named `Events`, prefix literal
`user.\x7bid\x7d` with the single variable `id`, one operation `Created`. -/
def scopeEvents : Scope :=
  ⟨"Events", ⟨[TPiece.lit "user.", TPiece.svar "id"], ["id"]⟩, [opCreated]⟩

/-- The round-trip scenario schema: no includes, containing `scopeEvents`. -/
def fEvents : Frugal := ⟨"events", [], [], [], [scopeEvents]⟩

/-- Prefix-variable environment binding `id` to a given runtime value. -/
def envId (idVal : String) : String → String :=
  fun n => if n = "id" then idVal else ""

/-- The concatenation of export lines for a list of scopes, in order. -/
def expLines : List Scope → String
  | [] => ""
  | s :: ss => exportLine s ++ expLines ss

/-- The mismatching-envelope scenario of the spec: a protocol about to deliver
a message named `Other` (payload modelled as a number). -/
def iprotOther : InProt Nat := ⟨⟨"Other", TMessageType.CALL, 1⟩, 7⟩

/-- An operation whose parameter type originates from the include `shared`. -/
def opUpdated : Operation := ⟨"Updated", "Other", "shared"⟩

/-- A schema with one include `shared` whose Dart namespace is `a.b`. -/
def fShared : Frugal := ⟨"main", [], ["shared"], [("shared", "a.b")], []⟩

/-- A schema with a single include whose resolved Dart namespace is `thrift`,
clashing with the fixed runtime-dependency key. -/
def fBadInc : Frugal := ⟨"n", [], ["foo"], [("foo", "thrift")], []⟩

/-- The duplicate-namespace scenario of the spec: two includes resolving to
the same namespace `a.b`. -/
def fDup : Frugal := ⟨"n", [], ["x", "y"], [("x", "a.b"), ("y", "a.b")], []⟩

/-- A scope whose declared name is not title-cased. -/
def scopeLower : Scope := ⟨"events", ⟨[], []⟩, []⟩

/-- A scope named `Events` with no prefix and no operations. -/
def scopeE : Scope := ⟨"Events", ⟨[], []⟩, []⟩

/-- A scope named `Users` with no prefix and no operations. -/
def scopeU : Scope := ⟨"Users", ⟨[], []⟩, []⟩

/-- A schema with two scopes, for the facade-export scenario. -/
def fTwoScopes : Frugal := ⟨"n", [], [], [], [scopeE, scopeU]⟩

/-- A non-`%` character is copied through the sprintf model unchanged. -/
theorem charSprintf_cons_ne (c : Char) (l : List Char) (args : List String)
    (h : c ≠ '%') : charSprintf (c :: l) args = c :: charSprintf l args := by
  show sprintfAux false (c :: l) args = c :: sprintfAux false l args
  rw [sprintfAux, if_neg h]

/-- A `%s` verb consumes the next sprintf argument verbatim. -/
theorem charSprintf_slot (l : List Char) (a : String) (args : List String) :
    charSprintf ('%' :: 's' :: l) (a :: args) = a.data ++ charSprintf l args := by
  show sprintfAux false ('%' :: 's' :: l) (a :: args) = a.data ++ sprintfAux false l args
  rw [sprintfAux, if_pos rfl, sprintfAux, if_pos rfl]

/-- A `%`-free chunk of the format string is copied through the sprintf model
unchanged. -/
theorem charSprintf_lit (l rest : List Char) (args : List String)
    (h : ∀ c ∈ l, c ≠ '%') :
    charSprintf (l ++ rest) args = l ++ charSprintf rest args := by
  induction l with
  | nil => rfl
  | cons c l ih =>
    have hc : c ≠ '%' := h c (List.mem_cons_self c l)
    have hl : ∀ c' ∈ l, c' ≠ '%' := fun c' hm => h c' (List.mem_cons_of_mem c hm)
    simp [charSprintf_cons_ne _ _ _ hc, ih hl]

/-- With no arguments left, a `%`-free format string prints itself. -/
theorem charSprintf_done (l : List Char) (h : ∀ c ∈ l, c ≠ '%') :
    charSprintf l [] = l := by
  have h1 := charSprintf_lit l [] [] h
  simpa [charSprintf, sprintfAux, extrasChars] using h1

/-- Core sprintf/placeholder correspondence: running the piece-rendered format
string through the sprintf model with one interpolation expression per
placeholder substitutes the expressions positionally, and continues with the
remaining format text and arguments. -/
theorem charSprintf_pieces (ps : List TPiece) (vars : List String)
    (tail : List Char) (targs : List String)
    (hp : piecesNoPct ps = true) (hl : vars.length = slotCount ps) :
    charSprintf (tmplChars ps ++ tail)
        ((vars.map fun v => "$\x7b" ++ v ++ "\x7d") ++ targs) =
      substChars ps vars ++ charSprintf tail targs := by
  induction ps generalizing vars with
  | nil =>
    have : vars = [] := List.length_eq_zero.mp (by simpa [slotCount] using hl)
    subst this
    simp [tmplChars, substChars]
  | cons p ps ih =>
    cases p with
    | lit s =>
      have h2 : (∀ c ∈ s.data, ¬ c = '%') ∧ piecesNoPct ps = true := by
        simpa [piecesNoPct] using hp
      have hs : ∀ c ∈ s.data, c ≠ '%' := h2.1
      have hp' : piecesNoPct ps = true := h2.2
      have hl' : vars.length = slotCount ps := by simpa [slotCount] using hl
      calc charSprintf ((s.data ++ tmplChars ps) ++ tail)
              ((vars.map fun v => "$\x7b" ++ v ++ "\x7d") ++ targs)
          = charSprintf (s.data ++ (tmplChars ps ++ tail))
              ((vars.map fun v => "$\x7b" ++ v ++ "\x7d") ++ targs) := by
            rw [List.append_assoc]
        _ = s.data ++ charSprintf (tmplChars ps ++ tail)
              ((vars.map fun v => "$\x7b" ++ v ++ "\x7d") ++ targs) :=
            charSprintf_lit _ _ _ hs
        _ = s.data ++ (substChars ps vars ++ charSprintf tail targs) := by
            rw [ih vars hp' hl']
        _ = (s.data ++ substChars ps vars) ++ charSprintf tail targs := by
            rw [List.append_assoc]
    | svar n =>
      cases vars with
      | nil => simp [slotCount] at hl
      | cons v vs =>
        have hp' : piecesNoPct ps = true := by simpa [piecesNoPct] using hp
        have hl' : vs.length = slotCount ps := by
          have : vs.length + 1 = slotCount ps + 1 := by
            simpa [slotCount, List.length_cons] using hl
          omega
        calc charSprintf (('%' :: 's' :: tmplChars ps) ++ tail)
                ((("$\x7b" ++ v ++ "\x7d") ::
                  (vs.map fun v => "$\x7b" ++ v ++ "\x7d")) ++ targs)
            = charSprintf ('%' :: 's' :: (tmplChars ps ++ tail))
                (("$\x7b" ++ v ++ "\x7d") ::
                  ((vs.map fun v => "$\x7b" ++ v ++ "\x7d") ++ targs)) := by
              simp
          _ = ("$\x7b" ++ v ++ "\x7d").data ++
                charSprintf (tmplChars ps ++ tail)
                  ((vs.map fun v => "$\x7b" ++ v ++ "\x7d") ++ targs) :=
              charSprintf_slot _ _ _
          _ = ("$\x7b" ++ v ++ "\x7d").data ++
                (substChars ps vs ++ charSprintf tail targs) := by
              rw [ih vs hp' hl']
          _ = (("$\x7b" ++ v ++ "\x7d").data ++ substChars ps vs) ++
                charSprintf tail targs := by
              rw [List.append_assoc]

/-- A prefix literal with no placeholders renders the same characters as its
format string. -/
theorem tmplChars_eq_str_of_noslot (ps : List TPiece) (h : slotCount ps = 0) :
    tmplChars ps = prefixStrChars ps := by
  induction ps with
  | nil => rfl
  | cons p ps ih =>
    cases p with
    | lit s =>
      have h' : slotCount ps = 0 := by simpa [slotCount] using h
      simp [tmplChars, prefixStrChars, ih h']
    | svar n => simp [slotCount] at h

/-- A non-`$` character is copied through the interpolation model unchanged. -/
theorem interp_cons_ne (env : String → String) (c : Char) (l : List Char)
    (h : c ≠ '$') :
    interpAux env IMode.txt (c :: l) = c :: interpAux env IMode.txt l := by
  simp [interpAux, h]

/-- A `$`-free chunk of a Dart string literal is copied through the
interpolation model unchanged. -/
theorem interp_lit (env : String → String) (l rest : List Char)
    (h : ∀ c ∈ l, c ≠ '$') :
    interpAux env IMode.txt (l ++ rest) = l ++ interpAux env IMode.txt rest := by
  induction l with
  | nil => rfl
  | cons c l ih =>
    have hc : c ≠ '$' := h c (List.mem_cons_self c l)
    have hl : ∀ c' ∈ l, c' ≠ '$' := fun c' hm => h c' (List.mem_cons_of_mem c hm)
    simp [interp_cons_ne _ _ _ hc, ih hl]

/-- A `$`-free Dart string literal interpolates to itself. -/
theorem interp_done (env : String → String) (l : List Char)
    (h : ∀ c ∈ l, c ≠ '$') : interpAux env IMode.txt l = l := by
  have h1 := interp_lit env l [] h
  simpa [interpAux] using h1

/-- Lookup after a Go-map-style insert: the inserted key maps to the inserted
value, other keys are unaffected. -/
theorem lookupA_mapInsert {β : Type} (m : List (String × β)) (k key : String)
    (v : β) :
    lookupA (mapInsert m k v) key = if key = k then some v else lookupA m key := by
  induction m with
  | nil =>
    by_cases h : key = k
    · subst h; simp [mapInsert, lookupA]
    · have h' : ¬ k = key := fun he => h he.symm
      simp [mapInsert, lookupA, h, h']
  | cons kv m ih =>
    obtain ⟨k', v'⟩ := kv
    by_cases h1 : k' = k
    · subst h1
      by_cases h2 : k' = key
      · subst h2
        simp [mapInsert, lookupA]
      · have h2' : ¬ key = k' := fun he => h2 he.symm
        simp [mapInsert, lookupA, h2, h2']
    · by_cases h2 : k' = key
      · subst h2
        simp [mapInsert, lookupA, h1]
      · simp [mapInsert, lookupA, h1, h2, ih]

/-- Keys after a Go-map-style insert: unchanged when the key was present,
extended by the key otherwise. -/
theorem keysOf_mapInsert {β : Type} (m : List (String × β)) (k : String) (v : β) :
    keysOf (mapInsert m k v) =
      if k ∈ keysOf m then keysOf m else keysOf m ++ [k] := by
  induction m with
  | nil => simp [mapInsert, keysOf]
  | cons kv m ih =>
    obtain ⟨k', v'⟩ := kv
    by_cases h1 : k' = k
    · subst h1
      simp [mapInsert, keysOf]
    · have h1' : ¬ k = k' := fun he => h1 he.symm
      by_cases h2 : k ∈ keysOf m
      · simp [mapInsert, keysOf, h1, h1', h2, ih]
      · simp [mapInsert, keysOf, h1, h1', h2, ih]

/-- A Go-map-style insert preserves key distinctness. -/
theorem nodup_mapInsert {β : Type} (m : List (String × β)) (k : String) (v : β)
    (h : (keysOf m).Nodup) : (keysOf (mapInsert m k v)).Nodup := by
  rw [keysOf_mapInsert]
  by_cases hk : k ∈ keysOf m
  · simpa [hk] using h
  · rw [if_neg hk]
    exact List.Nodup.append h (List.nodup_singleton k)
      (fun a ha hb => hk (List.mem_singleton.mp hb ▸ ha))

/-- The dependency map built by `addToPubspec`, written as a fold of Go-map
inserts of resolved include library names over the fixed initial map. -/
theorem addToPubspecDeps_def (f : Frugal) :
    addToPubspecDeps f =
      f.referencedIncludes.foldl
        (fun deps inc =>
          mapInsert deps (modName f inc) (Dep.path ("../" ++ modName f inc)))
        [("thrift", Dep.git "git@github.com:Workiva/thrift-dart.git"),
         ("frugal", Dep.git "git@github.com:Workiva/frugal-dart.git")] := rfl

/-- Lookup characterization of the include-dependency fold: a key resolved
from some include maps to its relative-path dependency, every other key keeps
its binding from the initial map. -/
theorem lookupA_depsFold (f : Frugal) (incs : List String)
    (deps : List (String × Dep)) (n : String) :
    lookupA
        (incs.foldl
          (fun deps inc =>
            mapInsert deps (modName f inc) (Dep.path ("../" ++ modName f inc)))
          deps) n =
      if n ∈ incs.map (modName f) then some (Dep.path ("../" ++ n))
      else lookupA deps n := by
  induction incs generalizing deps with
  | nil => simp
  | cons inc incs ih =>
    simp only [List.foldl_cons, List.map_cons]
    rw [ih]
    by_cases h1 : n ∈ incs.map (modName f)
    · simp [h1]
    · by_cases h2 : n = modName f inc
      · subst h2
        simp [h1, lookupA_mapInsert]
      · simp [h1, h2, lookupA_mapInsert]

/-- The include-dependency fold preserves key distinctness. -/
theorem nodup_depsFold (f : Frugal) (incs : List String)
    (deps : List (String × Dep)) (h : (keysOf deps).Nodup) :
    (keysOf
      (incs.foldl
        (fun deps inc =>
          mapInsert deps (modName f inc) (Dep.path ("../" ++ modName f inc)))
        deps)).Nodup := by
  induction incs generalizing deps with
  | nil => exact h
  | cons inc incs ih =>
    exact ih _ (nodup_mapInsert _ _ _ h)

/-- One publish call, fully evaluated: the successor state, the five
transport/protocol actions in emission order, and the flush future. -/
theorem publishBody_eq (delim : String) (scope : Scope) (op : Operation)
    (env : String → String) (st : PubState) :
    publishBody delim scope op env st =
      (PubState.mk (st.seqId + 1),
       [PubEvent.prepare (publishTopic delim scope env op.name),
        PubEvent.msgBegin (TMessage.mk op.name TMessageType.CALL (st.seqId + 1)),
        PubEvent.reqWrite, PubEvent.msgEnd, PubEvent.flush],
       PubReturn.flushFuture) := rfl

/-- Envelope sequence numbers distribute over action-log concatenation. -/
theorem seqsOf_append (a b : List PubEvent) :
    seqsOf (a ++ b) = seqsOf a ++ seqsOf b := by
  induction a with
  | nil => rfl
  | cons e a ih => cases e <;> simp [seqsOf, ih]

/-- Running a list of publish calls from any state: the envelopes carry the
consecutive sequence numbers starting one above the initial counter, and the
final counter has advanced by the number of calls. -/
theorem runPublishes_spec (delim : String) (scope : Scope)
    (calls : List (Operation × (String → String))) (st : PubState) :
    seqsOf (runPublishes delim scope st calls).1 =
        seqList (st.seqId + 1) calls.length ∧
      (runPublishes delim scope st calls).2.seqId = st.seqId + calls.length := by
  induction calls generalizing st with
  | nil => simp [runPublishes, seqsOf, seqList]
  | cons call calls ih =>
    obtain ⟨op, env⟩ := call
    have hrun :
        runPublishes delim scope st ((op, env) :: calls) =
          ((publishBody delim scope op env st).2.1 ++
            (runPublishes delim scope (publishBody delim scope op env st).1 calls).1,
           (runPublishes delim scope (publishBody delim scope op env st).1 calls).2) := rfl
    rw [hrun]
    have h1 := ih (publishBody delim scope op env st).1
    constructor
    · rw [seqsOf_append, h1.1, publishBody_eq]
      simp [seqsOf, seqList, List.length_cons]
    · rw [h1.2, publishBody_eq]
      simp [List.length_cons]
      omega

/-- Folding export-line appends over a list of scopes appends the
concatenation of the lines. -/
theorem foldl_exportLine (ss : List Scope) (init : String) :
    ss.foldl (fun e s => e ++ exportLine s) init = init ++ expLines ss := by
  induction ss generalizing init with
  | nil => simp [expLines]
  | cons s ss ih => simp [expLines, ih, String.append_assoc]

/-- C1: the compiled topic-prefix template is the empty string when the
literal prefix is empty; otherwise the literal prefix concatenated with the
channel delimiter, verbatim, when the Prefix declares no variables; and with
N declared variables, each positional placeholder `i` of the literal prefix
is replaced by an interpolation expression referencing variable `i` of the
declared list, in declaration order and independently of the placeholders'
own names (`specCompiledTemplate` substitutes purely positionally). -/
theorem c1_compiled_template_positional (delim : String) (scope : Scope)
    (hp : piecesNoPct scope.pfx.pieces = true)
    (hd : ∀ c ∈ delim.data, c ≠ '%')
    (hl : scope.pfx.vars.length = slotCount scope.pfx.pieces) :
    generatePrefixStringTemplate delim scope = specCompiledTemplate delim scope.pfx := by
  unfold generatePrefixStringTemplate specCompiledTemplate
  by_cases hstr : scope.pfx.string = ""
  · simp [hstr]
  · rw [if_neg hstr, if_neg hstr]
    by_cases hv : scope.pfx.vars = []
    · rw [if_pos hv, if_pos hv]
      have h0 : slotCount scope.pfx.pieces = 0 := by
        rw [← hl, hv]; rfl
      show scope.pfx.template ++ delim = scope.pfx.string ++ delim
      unfold ScopePfx.template ScopePfx.string
      rw [tmplChars_eq_str_of_noslot scope.pfx.pieces h0]
    · rw [if_neg hv, if_neg hv]
      show goSprintf (scope.pfx.template ++ delim)
          (scope.pfx.vars.map fun v => "$\x7b" ++ v ++ "\x7d") =
        (⟨substChars scope.pfx.pieces scope.pfx.vars⟩ : String) ++ delim
      apply strExt
      show charSprintf (scope.pfx.template ++ delim).data
          (scope.pfx.vars.map fun v => "$\x7b" ++ v ++ "\x7d") =
        ((⟨substChars scope.pfx.pieces scope.pfx.vars⟩ : String) ++ delim).data
      have hdata : (scope.pfx.template ++ delim).data =
          tmplChars scope.pfx.pieces ++ delim.data := rfl
      rw [hdata]
      have hmain := charSprintf_pieces scope.pfx.pieces scope.pfx.vars
        delim.data [] hp hl
      rw [List.append_nil] at hmain
      rw [hmain, charSprintf_done delim.data hd]
      rfl

/-- Witness for C1: the round-trip scope with delimiter `.` satisfies the
hypotheses, and the source-side compiled template agrees with the
positional-substitution specification there. -/
theorem c1_witness :
    (piecesNoPct scopeEvents.pfx.pieces = true ∧
      (∀ c ∈ ".".data, c ≠ '%') ∧
      scopeEvents.pfx.vars.length = slotCount scopeEvents.pfx.pieces) ∧
    generatePrefixStringTemplate "." scopeEvents =
      specCompiledTemplate "." scopeEvents.pfx :=
  ⟨⟨by decide, by decide, by decide⟩,
    c1_compiled_template_positional "." scopeEvents (by decide) (by decide) (by decide)⟩

/-- The compiled template of the round-trip scope, for any `%`-free
delimiter. -/
theorem genTemplate_scopeEvents (delim : String) (hd : ∀ c ∈ delim.data, c ≠ '%') :
    generatePrefixStringTemplate delim scopeEvents = "user.$\x7bid\x7d" ++ delim := by
  show goSprintf (scopeEvents.pfx.template ++ delim)
      (scopeEvents.pfx.vars.map fun v => "$\x7b" ++ v ++ "\x7d") =
    "user.$\x7bid\x7d" ++ delim
  apply strExt
  have hmain := charSprintf_pieces scopeEvents.pfx.pieces ["id"] delim.data []
    (by decide) (by decide)
  rw [List.append_nil] at hmain
  show charSprintf (tmplChars scopeEvents.pfx.pieces ++ delim.data)
      (["id"].map fun v => "$\x7b" ++ v ++ "\x7d") =
    ("user.$\x7bid\x7d" ++ delim).data
  rw [hmain, charSprintf_done delim.data hd]
  rfl

/-- Dart interpolation of the compiled round-trip template: the bound `id`
value is inserted verbatim between the literal text and the delimiter. -/
theorem interp_scopeEvents (idVal delim : String)
    (hd : ∀ c ∈ delim.data, c ≠ '$') :
    dartInterp (envId idVal) ("user.$\x7bid\x7d" ++ delim) =
      "user." ++ idVal ++ delim := by
  apply strExt
  show interpAux (envId idVal) IMode.txt
      ("user.".data ++ ('$' :: '\x7b' :: 'i' :: 'd' :: '\x7d' :: delim.data)) =
    ("user." ++ idVal ++ delim).data
  rw [interp_lit _ _ _ (by decide)]
  simp only [interpAux, envId, if_pos, if_neg]
  norm_num [interp_done _ delim.data hd]
  rfl

/-- C2 counterexample: with delimiter `.` and `id` bound to `42`, the topic
computed by the generated publish method of the round-trip scope is
`user.42.Events.Created`, not the claimed
`"user." + id + "." + delimiter + "Events" + delimiter + "Created"`, which
inserts an extra `.` between the interpolated `id` and the delimiter. -/
theorem c2_counterexample :
    publishTopic "." scopeEvents (envId "42") "Created" ≠
      "user." ++ "42" ++ "." ++ "." ++ "Events" ++ "." ++ "Created" := by
  decide

/-- C2 (amended): for the round-trip scope, the topic computed by the
generated publish method is `"user." + id + delimiter + "Events" + delimiter
+ "Created"` (the compiled prefix contributes exactly one delimiter after the
interpolated `id`, with no extra `.`), and the operation's qualified
parameter identifier aliases the module derived from the lower-cased
parameter type name. -/
theorem c2_amended_roundtrip (delim idVal : String)
    (hd : ∀ c ∈ delim.data, c ≠ '%' ∧ c ≠ '$') :
    publishTopic delim scopeEvents (envId idVal) "Created" =
        "user." ++ idVal ++ delim ++ "Events" ++ delim ++ "Created" ∧
      qualifiedParamName fEvents opCreated = "t_userevent.UserEvent" := by
  constructor
  · show dartInterp (envId idVal) (generatePrefixStringTemplate delim scopeEvents) ++
        goTitle scopeEvents.name ++ delim ++ "Created" =
      "user." ++ idVal ++ delim ++ "Events" ++ delim ++ "Created"
    rw [genTemplate_scopeEvents delim (fun c hc => (hd c hc).1)]
    rw [interp_scopeEvents idVal delim (fun c hc => (hd c hc).2)]
    have hg : goTitle scopeEvents.name = "Events" := by decide
    rw [hg]
  · decide

/-- Witness for C2 (amended): delimiter `.` and `id = 42` satisfy the
hypothesis and yield the topic `user.42.Events.Created` together with the
qualified parameter identifier `t_userevent.UserEvent`. -/
theorem c2_witness :
    publishTopic "." scopeEvents (envId "42") "Created" =
        "user." ++ "42" ++ "." ++ "Events" ++ "." ++ "Created" ∧
      qualifiedParamName fEvents opCreated = "t_userevent.UserEvent" :=
  c2_amended_roundtrip "." "42" (by decide)

/-- C3: the generated private receive routine, on an envelope whose message
name differs from the expected operation name, skips the unread payload
structurally, closes the envelope and fails with an unknown-method
application error — never constructing or decoding the parameter type — and
on a matching name constructs a fresh instance of the qualified parameter
type, deserializes it, closes the envelope and returns it. -/
theorem c3_recv_behavior {α : Type} (opName qn : String) (iprot : InProt α) :
    (iprot.msg.name ≠ opName →
      recvBody opName qn iprot =
        (Except.error ⟨TApplicationErrorType.UNKNOWN_METHOD, iprot.msg.name⟩,
         [RecvEvent.readMsgBegin, RecvEvent.skipStruct, RecvEvent.readMsgEnd]) ∧
      RecvEvent.reqRead ∉ (recvBody opName qn iprot).2 ∧
      RecvEvent.constructReq qn ∉ (recvBody opName qn iprot).2) ∧
    (iprot.msg.name = opName →
      recvBody opName qn iprot =
        (Except.ok iprot.payload,
         [RecvEvent.readMsgBegin, RecvEvent.constructReq qn, RecvEvent.reqRead,
          RecvEvent.readMsgEnd])) := by
  constructor
  · intro h
    have he : recvBody opName qn iprot =
        (Except.error ⟨TApplicationErrorType.UNKNOWN_METHOD, iprot.msg.name⟩,
         [RecvEvent.readMsgBegin, RecvEvent.skipStruct, RecvEvent.readMsgEnd]) := by
      simp [recvBody, h]
    refine ⟨he, ?_, ?_⟩ <;> rw [he] <;> simp
  · intro h
    simp [recvBody, h]

/-- Witness for C3: expecting `Created` but receiving `Other`, the receive
routine fails with the unknown-method error naming `Other`, without any
payload read. -/
theorem c3_witness :
    recvBody "Created" "t_userevent.UserEvent" iprotOther =
        (Except.error ⟨TApplicationErrorType.UNKNOWN_METHOD, "Other"⟩,
         [RecvEvent.readMsgBegin, RecvEvent.skipStruct, RecvEvent.readMsgEnd]) ∧
      RecvEvent.reqRead ∉ (recvBody "Created" "t_userevent.UserEvent" iprotOther).2 := by
  have h := (c3_recv_behavior "Created" "t_userevent.UserEvent" iprotOther).1 (by decide)
  exact ⟨h.1, h.2.1⟩

/-- C4: with an originating Include, `qualifiedParamName` aliases the
parameter with the include's resolved namespace (falling back to the
include's literal name), normalized to a library name and lower-cased;
without one, the alias is the lower-cased parameter type name itself, and
the result does not depend on the schema at all (in particular never on the
enclosing schema's namespace). -/
theorem c4_qualified_param (f g : Frugal) (op : Operation) :
    (op.includeName ≠ "" →
      qualifiedParamName f op =
        "t_" ++ goToLower (toLibraryName
          ((namespaceForInclude f op.includeName).getD op.includeName)) ++
          "." ++ op.paramName) ∧
    (op.includeName = "" →
      qualifiedParamName f op =
          "t_" ++ goToLower op.paramName ++ "." ++ op.paramName ∧
        qualifiedParamName f op = qualifiedParamName g op) := by
  constructor
  · intro h
    simp [qualifiedParamName, h]
  · intro h
    constructor <;> simp [qualifiedParamName, h]

/-- Witness for C4: the include-bearing operation `Updated` (include `shared`
with namespace `a.b`) aliases `t_a_b`, and the include-free operation
`Created` aliases its own lower-cased parameter name, independently of the
schema. -/
theorem c4_witness :
    qualifiedParamName fShared opUpdated = "t_a_b.Other" ∧
      qualifiedParamName fShared opCreated = "t_userevent.UserEvent" ∧
      qualifiedParamName fShared opCreated = qualifiedParamName fEvents opCreated := by
  refine ⟨?_, ?_, ?_⟩
  · have h := (c4_qualified_param fShared fEvents opUpdated).1 (by decide)
    exact h.trans (by decide)
  · have h := ((c4_qualified_param fShared fEvents opCreated).2 (by decide)).1
    exact h.trans (by decide)
  · exact ((c4_qualified_param fShared fEvents opCreated).2 (by decide)).2

/-- Membership in a consecutive-naturals list. -/
theorem mem_seqList {m s n : Nat} : m ∈ seqList s n ↔ s ≤ m ∧ m < s + n := by
  induction n generalizing s with
  | zero =>
    simp [seqList]
  | succ n ih =>
    simp [seqList, ih]
    omega

/-- C5 counterexample: a schema with one include whose resolved Dart namespace
is `thrift` overwrites the fixed git dependency on the thrift runtime, so the
built manifest does not contain it. -/
theorem c5_counterexample :
    ("thrift", Dep.git "git@github.com:Workiva/thrift-dart.git") ∉
      addToPubspecDeps fBadInc := by
  decide

/-- C5 (amended): provided no include's resolved module name equals `thrift`
or `frugal`, the built dependency map contains the two fixed git
dependencies, maps a key to a relative-path dependency exactly when it is
the resolved module name of some referenced include (so two includes
resolving to the same namespace collapse to one entry), and has pairwise
distinct keys. -/
theorem c5_amended_manifest (f : Frugal)
    (ht : "thrift" ∉ modNames f) (hf : "frugal" ∉ modNames f) :
    lookupA (addToPubspecDeps f) "thrift" =
        some (Dep.git "git@github.com:Workiva/thrift-dart.git") ∧
      lookupA (addToPubspecDeps f) "frugal" =
        some (Dep.git "git@github.com:Workiva/frugal-dart.git") ∧
      (∀ n, n ∈ modNames f ↔
        lookupA (addToPubspecDeps f) n = some (Dep.path ("../" ++ n))) ∧
      (keysOf (addToPubspecDeps f)).Nodup := by
  rw [addToPubspecDeps_def]
  have hchar := fun n => lookupA_depsFold f f.referencedIncludes
    [("thrift", Dep.git "git@github.com:Workiva/thrift-dart.git"),
     ("frugal", Dep.git "git@github.com:Workiva/frugal-dart.git")] n
  have ht' : ¬ "thrift" ∈ List.map (modName f) f.referencedIncludes := ht
  have hf' : ¬ "frugal" ∈ List.map (modName f) f.referencedIncludes := hf
  refine ⟨?_, ?_, ?_, ?_⟩
  · rw [hchar "thrift", if_neg ht']
    decide
  · rw [hchar "frugal", if_neg hf']
    decide
  · intro n
    rw [hchar n]
    by_cases hn : n ∈ f.referencedIncludes.map (modName f)
    · rw [if_pos hn]
      exact ⟨fun _ => rfl, fun _ => hn⟩
    · rw [if_neg hn]
      constructor
      · intro h
        exact absurd h hn
      · intro h
        by_cases h1 : n = "thrift"
        · subst h1
          simp [lookupA] at h
        · by_cases h2 : n = "frugal"
          · subst h2
            simp [lookupA] at h
          · have h1' : ¬ "thrift" = n := fun he => h1 he.symm
            have h2' : ¬ "frugal" = n := fun he => h2 he.symm
            simp [lookupA, h1', h2'] at h
  · exact nodup_depsFold f _ _ (by decide)

/-- Witness for C5 (amended): two includes both resolving to namespace `a.b`
produce a manifest with the two git dependencies and exactly one
relative-path entry `a_b`. -/
theorem c5_witness :
    lookupA (addToPubspecDeps fDup) "thrift" =
        some (Dep.git "git@github.com:Workiva/thrift-dart.git") ∧
      lookupA (addToPubspecDeps fDup) "a_b" = some (Dep.path "../a_b") ∧
      addToPubspecDeps fDup =
        [("thrift", Dep.git "git@github.com:Workiva/thrift-dart.git"),
         ("frugal", Dep.git "git@github.com:Workiva/frugal-dart.git"),
         ("a_b", Dep.path "../a_b")] := by
  have h := c5_amended_manifest fDup (by decide) (by decide)
  exact ⟨h.1, (h.2.2.1 "a_b").mp (by decide), by decide⟩

/-- C6: every generated publish method, run on any publisher state, performs
in order: prepare-publish of the topic computed from the compiled prefix
template, the title-cased scope name, the delimiter and the operation name;
increment of the sequence counter; write of a CALL message envelope carrying
the post-increment sequence number; serialization of the request; close of
the envelope; and the final transport flush, whose future is the method's
result. -/
theorem c6_publish_effect_order (delim : String) (scope : Scope)
    (op : Operation) (env : String → String) (st : PubState) :
    publishBody delim scope op env st =
      (PubState.mk (st.seqId + 1),
       [PubEvent.prepare (publishTopic delim scope env op.name),
        PubEvent.msgBegin (TMessage.mk op.name TMessageType.CALL (st.seqId + 1)),
        PubEvent.reqWrite, PubEvent.msgEnd, PubEvent.flush],
       PubReturn.flushFuture) := rfl

/-- C7 counterexample: for a scope declared with the non-title-cased name
`events`, the facade export line shows `eventsPublisher`, while the generated
publisher class is named `EventsPublisher`, so the line does not name the
generated class. -/
theorem c7_counterexample :
    exportLine scopeLower =
        "export 'src/frug_events.dart' show eventsPublisher, eventsSubscriber;\n" ∧
      publisherClassName scopeLower = "EventsPublisher" ∧
      (exportShown scopeLower).1 ≠ publisherClassName scopeLower := by
  refine ⟨by decide, by decide, by decide⟩

/-- C7 (amended): appending exports leaves every byte before the original end
of file unchanged and writes exactly the export block there — a newline
followed by one export line per scope, in scope order — and each line shows
the scope's declared name suffixed `Publisher` and `Subscriber`, which equal
the generated class names exactly when the declared name is unchanged by
title-casing. -/
theorem c7_amended_exports (old : String) (f : Frugal) :
    (exportClasses old f).data.take old.data.length = old.data ∧
      (exportClasses old f).data.drop old.data.length =
        ("\n" ++ expLines f.scopes).data ∧
      exportsFor f = "\n" ++ expLines f.scopes ∧
      (∀ s ∈ f.scopes,
        exportLine s =
            "export 'src/" ++ filePfx ++ goToLower s.name ++ "." ++ lang ++
              "' show " ++ (s.name ++ "Publisher") ++ ", " ++
              (s.name ++ "Subscriber") ++ ";\n" ∧
          (goTitle s.name = s.name →
            (exportShown s).1 = publisherClassName s ∧
            (exportShown s).2 = subscriberClassName s)) := by
  have hfold : exportsFor f = "\n" ++ expLines f.scopes :=
    foldl_exportLine f.scopes "\n"
  have hdata : (exportClasses old f).data = old.data ++ (exportsFor f).data := rfl
  refine ⟨?_, ?_, hfold, ?_⟩
  · rw [hdata, List.take_left]
  · rw [hdata, List.drop_left, hfold]
  · intro s _
    refine ⟨rfl, fun h => ⟨?_, ?_⟩⟩
    · show s.name ++ "Publisher" = goTitle s.name ++ "Publisher"
      rw [h]
    · show s.name ++ "Subscriber" = goTitle s.name ++ "Subscriber"
      rw [h]

/-- Witness for C7 (amended): appending the two-scope schema's exports to a
file containing `prior` preserves the prior bytes and appends exactly two
export lines, whose shown names coincide with the generated class names
because both scope names are title-cased. -/
theorem c7_witness :
    (exportClasses "prior" fTwoScopes).data.take "prior".data.length =
        "prior".data ∧
      exportsFor fTwoScopes = "\n" ++ expLines fTwoScopes.scopes ∧
      (exportShown scopeE).1 = publisherClassName scopeE ∧
      (exportShown scopeU).2 = subscriberClassName scopeU ∧
      expLines fTwoScopes.scopes =
        "export 'src/frug_events.dart' show EventsPublisher, EventsSubscriber;\n" ++
          "export 'src/frug_users.dart' show UsersPublisher, UsersSubscriber;\n" := by
  have h := c7_amended_exports "prior" fTwoScopes
  refine ⟨h.1, h.2.2.1, ?_, ?_, by decide⟩
  · exact ((h.2.2.2 scopeE (by decide)).2 (by decide)).1
  · exact ((h.2.2.2 scopeU (by decide)).2 (by decide)).2

/-- C8: for every scope and operation, the topic computed inside the generated
subscribe method is identical to the topic computed inside the corresponding
generated publish method — both interpolate the same compiled prefix template
and append the same title-cased scope name, delimiter and operation name. -/
theorem c8_subscribe_topic_eq_publish (delim : String) (scope : Scope)
    (env : String → String) (opName : String) :
    subscribeTopic delim scope env opName = publishTopic delim scope env opName := rfl

/-- C9: requesting any output file type other than the combined scope file
fails immediately with the bad-file-type error and produces no file, and the
combined scope file type alone yields the created file under `lib/src`. -/
theorem c9_generateFile (name outputDir : String) (ft : FileType) :
    generateFile name outputDir ft =
      if ft = FileType.combinedScope then
        Except.ok (createFile (goToLower name) (outputDir ++ "/lib" ++ "/src") lang true)
      else
        Except.error ("frugal: Bad file type for dartlang generator: " ++
          fileTypeName ft) := by
  by_cases h : ft = FileType.combinedScope <;> simp [generateFile, h]

/-- C10: a publisher's sequence counter starts at 0 at construction and is
incremented before each envelope write, so across any sequence of publish
calls on a fresh publisher the written envelopes carry the sequence numbers
1, 2, ..., k in order — never 0. -/
theorem c10_sequence_numbers (delim : String) (scope : Scope)
    (calls : List (Operation × (String → String))) :
    newPublisher.seqId = 0 ∧
      seqsOf (runPublishes delim scope newPublisher calls).1 =
        seqList 1 calls.length ∧
      0 ∉ seqsOf (runPublishes delim scope newPublisher calls).1 := by
  have h := runPublishes_spec delim scope calls newPublisher
  refine ⟨rfl, ?_, ?_⟩
  · simpa [newPublisher] using h.1
  · intro hmem
    rw [h.1] at hmem
    have hb := mem_seqList.mp hmem
    simp [newPublisher] at hb

end Frugalc
